import Mathlib

/-!
Shallow embedding of the PropertyEdge valuation engine
(`src/propertyedge_core.py`) and proofs about it.

Modelling conventions:
* Python `float` arithmetic is modelled exactly over `ℚ`.  Every concrete
  input used in a witness or counterexample below has been chosen so that
  the double-precision computation of the source and the rational
  computation agree (all intermediate comparisons are far from
  representation boundaries).
* Python `None` becomes `Option.none`; Python truthiness on optional
  values (`if x:`) is modelled by explicit `truthy…` helpers, where
  `0`, `0.0`, `""`, `[]` and `None` all count as false.
* Python `int(x)` on a float truncates toward zero (`truncInt`);
  Python `round(x)` rounds half to even (`pythonRound`).
* `math.sqrt` is modelled by `ratSqrt`, a floor square root with `10⁻⁸`
  precision.  Its only use in the engine is inside a clamp to
  `[0.92, 1.10]`, and no statement below depends on more precision than
  that (concrete inputs land strictly inside or outside the clamp).
* A Python function that can raise is modelled with `Except String`.
-/

namespace PropertyEdge

/-- Python truthiness of an optional integer: `None` and `0` are falsy. -/
def truthyInt : Option ℤ → Bool
  | none => false
  | some n => n != 0

/-- Python truthiness of an optional float: `None` and `0.0` are falsy. -/
def truthyQ : Option ℚ → Bool
  | none => false
  | some q => q != 0

/-- Python truthiness of an optional string: `None` and `""` are falsy. -/
def truthyStr : Option String → Bool
  | none => false
  | some s => s != ""

/-- Python truthiness of an optional list: `None` and `[]` are falsy. -/
def truthyList : Option (List String) → Bool
  | none => false
  | some l => !l.isEmpty

/-- Python `int(x)` on a float: truncation toward zero. -/
def truncInt (x : ℚ) : ℤ :=
  if 0 ≤ x then ⌊x⌋ else ⌈x⌉

/-- Python `round(x)` for a float `x`: round half to even. -/
def pythonRound (x : ℚ) : ℤ :=
  if x - ⌊x⌋ < 1/2 then ⌊x⌋
  else if 1/2 < x - ⌊x⌋ then ⌊x⌋ + 1
  else if ⌊x⌋ % 2 = 0 then ⌊x⌋ else ⌊x⌋ + 1

/-- Python `sorted` on a list of numbers (ascending). -/
def sortQ (l : List ℚ) : List ℚ :=
  l.insertionSort (· ≤ ·)

/-- Embedding of `median` (propertyedge_core.py lines 66-71). -/
def median (vals : List ℚ) : Option ℚ :=
  if vals.isEmpty then none
  else
    let s := sortQ vals
    let n := s.length
    if n % 2 = 1 then some (s.getD (n / 2) 0)
    else some ((s.getD (n / 2 - 1) 0 + s.getD (n / 2) 0) / 2)

/-- Embedding of `quantile` (propertyedge_core.py lines 74-85). -/
def quantile (vals : List ℚ) (q : ℚ) : Option ℚ :=
  if vals.isEmpty then none
  else
    let s := sortQ vals
    if s.length = 1 then some (s.getD 0 0)
    else
      let pos : ℚ := ((s.length : ℚ) - 1) * q
      let lo : ℤ := ⌊pos⌋
      let hi : ℤ := ⌈pos⌉
      if lo = hi then some (s.getD lo.toNat 0)
      else some (s.getD lo.toNat 0 +
        (s.getD hi.toNat 0 - s.getD lo.toNat 0) * (pos - (lo : ℚ)))

/-- Embedding of `pct` (propertyedge_core.py lines 88-91):
`None` if `a` is `None` or `b` is `None` or `0`. -/
def pct (a b : Option ℚ) : Option ℚ :=
  match a, b with
  | none, _ => none
  | _, none => none
  | some a, some b => if b = 0 then none else some ((a - b) / b * 100)

/-- Embedding of `round_to_nearest` (propertyedge_core.py lines 94-95). -/
def round_to_nearest (x : ℤ) (base : ℤ) : ℤ :=
  base * pythonRound ((x : ℚ) / (base : ℚ))

/-- Fuel-driven integer square root (recursing on `⌊n / 4⌋`), used to give a
computable model of `math.sqrt`.  With fuel 64 it is exact for every
argument below `4 ^ 64`. -/
def isqrtAux : ℕ → ℕ → ℕ
  | 0, _ => 0
  | fuel + 1, n =>
    if n = 0 then 0
    else
      let r := 2 * isqrtAux fuel (n / 4)
      if (r + 1) * (r + 1) ≤ n then r + 1 else r

/-- Floor integer square root with fixed fuel 64. -/
def isqrt (n : ℕ) : ℕ := isqrtAux 64 n

/-- Model of `math.sqrt` over `ℚ`: floor square root with `10⁻⁸` precision
(exact on perfect squares; the engine only uses it inside a clamp). -/
def ratSqrt (x : ℚ) : ℚ :=
  if x ≤ 0 then 0
  else ((isqrt (x.num.toNat * x.den * 10 ^ 16) : ℚ)) / ((x.den : ℚ) * 10 ^ 8)

/-- Embedding of the `ListingFacts` dataclass (propertyedge_core.py lines 16-31). -/
structure ListingFacts where
  url : String
  property_id : String
  address : Option String := none
  postcode : Option String := none
  price : Option ℤ := none
  bedrooms : Option ℤ := none
  bathrooms : Option ℤ := none
  property_type : Option String := none
  tenure : Option String := none
  floor_area_sqm : Option ℚ := none
  floor_area_sqft : Option ℚ := none
  epc_rating : Option String := none
  key_features : Option (List String) := none
deriving Repr

/-- Embedding of the `Comp` dataclass (propertyedge_core.py lines 33-40). -/
structure Comp where
  price : ℤ
  date : String
  postcode : String
  property_type : String
  street : Option String := none
  town : Option String := none
deriving Repr

/-- Reversed-digit comma grouping: inserts `,` after every third character
of the reversed digit string, as Python `{:,}` formatting does. -/
def groupThousandsRev : List Char → List Char
  | a :: b :: c :: d :: rest => a :: b :: c :: ',' :: groupThousandsRev (d :: rest)
  | l => l

/-- Python `{:,}` formatting of an integer (thousands separators). -/
def fmtComma (n : ℤ) : String :=
  (if n < 0 then "-" else "") ++
    String.mk (groupThousandsRev (toString n.natAbs).data.reverse).reverse

/-- Digits of `a` modulo `10 ^ d`, left padded with zeros to width `d`. -/
def fracDigits (d : ℕ) (a : ℕ) : String :=
  let s := toString (a % 10 ^ d)
  String.mk (List.replicate (d - s.length) '0') ++ s

/-- Python `{:.df}` fixed-point formatting (round half to even at `d`
decimal places, minus sign only when negative). -/
def fmtFixed (d : ℕ) (x : ℚ) : String :=
  let n := pythonRound (x * ((10 : ℚ) ^ d))
  let a := n.natAbs
  (if n < 0 then "-" else "") ++ toString (a / 10 ^ d) ++ "." ++ fracDigits d a

/-- Python `{:+.df}` fixed-point formatting (sign always shown). -/
def fmtSigned (d : ℕ) (x : ℚ) : String :=
  let n := pythonRound (x * ((10 : ℚ) ^ d))
  let a := n.natAbs
  (if n < 0 then "-" else "+") ++ toString (a / 10 ^ d) ++ "." ++ fracDigits d a

/-- Python `str.lower()` as used on tenure text (character-wise case
mapping over the string's characters). -/
def pyLower (s : String) : String := String.mk (s.data.map Char.toLower)

/-- Python `str.upper()`. -/
def pyUpper (s : String) : String := String.mk (s.data.map Char.toUpper)

/-- Python `str.strip()`: drop leading and trailing whitespace. -/
def pyStrip (s : String) : String :=
  String.mk (((s.data.dropWhile Char.isWhitespace).reverse.dropWhile
    Char.isWhitespace).reverse)

/-- Python `str.startswith(pre)`. -/
def pyStartsWith (s pre : String) : Bool :=
  s.data.take pre.data.length == pre.data

/-- Size-adjustment factor of `estimate_value_from_comps`
(propertyedge_core.py lines 266-270): `1.0` unless `facts.floor_area_sqm`
is truthy, in which case `sqrt(floor_area_sqm / 68.0)` clamped to
`[0.92, 1.10]`. -/
def size_adjustment (floor_area_sqm : Option ℚ) : ℚ :=
  if truthyQ floor_area_sqm then
    max (92/100) (min (110/100) (ratSqrt (floor_area_sqm.getD 0 / 68)))
  else 1

/-- Comp price extraction (propertyedge_core.py line 256):
`[float(c.price) for c in comps if c.price]`. -/
def comp_prices (comps : List Comp) : List ℚ :=
  (comps.filter (fun c => c.price != 0)).map (fun c => (c.price : ℚ))

/-- Embedding of `estimate_value_from_comps` (propertyedge_core.py
lines 250-280). -/
def estimate_value_from_comps (facts : ListingFacts) (comps : List Comp) :
    Option ℤ × Option ℤ × Option ℤ × List String :=
  if comps.isEmpty then
    (none, none, none,
      ["No sold comps found (PPD SQLite not loaded or no matches in postcode sector/time window)."])
  else
    let prices := comp_prices comps
    match median prices, quantile prices (1/4), quantile prices (3/4) with
    | some mid, some q25, some q75 =>
      let size_adj := size_adjustment facts.floor_area_sqm
      let low := truncInt (q25 * size_adj)
      let midv := truncInt (mid * size_adj)
      let high := truncInt (q75 * size_adj)
      let notes :=
        ["Comp quartiles (unadjusted): Q25≈£" ++ fmtComma (truncInt q25) ++
          ", Median≈£" ++ fmtComma (truncInt mid) ++
          ", Q75≈£" ++ fmtComma (truncInt q75) ++ "."] ++
        (if truthyQ facts.floor_area_sqm then
          ["Applied light size adjustment factor ≈ " ++ fmtFixed 3 size_adj ++
            " based on " ++ fmtFixed 1 (facts.floor_area_sqm.getD 0) ++
            " sqm vs baseline 68 sqm."]
        else [])
      (some low, some midv, some high, notes)
    | _, _, _ =>
      (none, none, none, ["Insufficient comp distribution to compute quartiles."])

/-- Embedding of `reasonableness_score` (propertyedge_core.py lines
283-319).  The result is wrapped in `Except String` because the final
note raises `TypeError` when `diff_pct` is `None` (Python formats `None`
with `:+.1f`), which happens exactly when `fair_mid` is `0` while the
asking price is present. -/
def reasonableness_score (facts : ListingFacts) (fair_mid : Option ℤ)
    (comps_used : ℕ) : Except String (Option ℤ × Option String × List String) :=
  match facts.price, fair_mid with
  | none, _ =>
    .ok (none, none, ["Score unavailable (missing asking price or fair-mid)."])
  | some _, none =>
    .ok (none, none, ["Score unavailable (missing asking price or fair-mid)."])
  | some p, some fm =>
    let diff_pct := pct (some (p : ℚ)) (some (fm : ℚ))
    let dev := |diff_pct.getD 0|
    let price_component : ℤ := max 0 (40 - truncInt (dev / 15 * 40))
    let data_component : ℤ :=
      (if truthyQ facts.floor_area_sqm then 10 else 0) + min 10 (comps_used : ℤ)
    let tenure_component : ℤ :=
      if truthyStr facts.tenure then
        if pyStartsWith (pyLower (facts.tenure.getD "")) ("free") then 15
        else if pyStartsWith (pyLower (facts.tenure.getD "")) ("lease") then 10
        else 8
      else 8
    let epc_component : ℤ :=
      if truthyStr facts.epc_rating then
        let r := pyUpper (pyStrip (facts.epc_rating.getD ""))
        if r = "A" ∨ r = "B" then 15
        else if r = "C" then 12
        else if r = "D" then 9
        else 7
      else 8
    let behavior_component : ℤ := 6
    let score := max 0 (min 100 (price_component + data_component +
      tenure_component + epc_component + behavior_component))
    let label :=
      if score ≥ 80 then "Reasonably priced"
      else if score ≥ 60 then "Slight premium / negotiate"
      else if score ≥ 40 then "Overpriced unless there’s hidden value"
      else "Stretch pricing / proceed cautiously"
    match diff_pct with
    | none => .error "unsupported format string passed to NoneType.__format__"
    | some d =>
      .ok (some score, some label,
        ["Asking vs fair-mid deviation ≈ " ++ fmtSigned 1 d ++
          "%. Price component=" ++ toString price_component ++ "/40."])

/-- Embedding of `offer_strategy` (propertyedge_core.py lines 322-337). -/
def offer_strategy (facts : ListingFacts) (fair_low fair_mid : Option ℤ) :
    Option ℤ × Option ℤ × Option ℤ × List String :=
  match facts.price, fair_mid with
  | none, _ =>
    (none, none, none, ["Offer strategy unavailable (missing asking price or fair-mid)."])
  | some _, none =>
    (none, none, none, ["Offer strategy unavailable (missing asking price or fair-mid)."])
  | some _, some fm =>
    let anchor0 : ℤ := truncInt ((fm : ℚ) * (95/100))
    let anchor : ℤ :=
      match fair_low with
      | some fl => max anchor0 (truncInt ((fl : ℚ) * (98/100)))
      | none => anchor0
    let band_low := truncInt ((anchor : ℚ) * (98/100))
    let band_high := truncInt ((anchor : ℚ) * (102/100))
    (some (round_to_nearest anchor 1000), some (round_to_nearest band_low 1000),
      some (round_to_nearest band_high 1000),
      ["Offer anchor set near 95% of fair-mid (rounded to nearest £1k)."])

/-- The `valuation` dict built by `run_propertyedge` (propertyedge_core.py
lines 394-410).  Every key is always present; optional values model keys
whose stored value may be Python `None`. -/
structure Valuation where
  fair_value_low : Option ℤ
  fair_value_mid : Option ℤ
  fair_value_high : Option ℤ
  fair_value_range : Option String
  asking_vs_mid : Option String
  asking_vs_mid_pct : Option ℚ
  score : Option ℤ
  label : Option String
  offer_anchor : Option String
  offer_band : Option String
  notes : List String
  comps_used : ℕ
deriving Repr

/-- The valuation-building core of `run_propertyedge` (propertyedge_core.py
lines 389-410), taking the already-extracted facts and the already-looked-up
comps as inputs (scraping and the SQLite lookup are external I/O
collaborators).  `Except` propagates the exception that
`reasonableness_score` can raise. -/
def buildValuation (facts : ListingFacts) (comps : List Comp) :
    Except String Valuation :=
  let r := estimate_value_from_comps facts comps
  let fair_low := r.1
  let fair_mid := r.2.1
  let fair_high := r.2.2.1
  let n1 := r.2.2.2
  let asking_vs_mid : Option ℚ :=
    if truthyInt facts.price && truthyInt fair_mid then
      pct (some ((facts.price.getD 0 : ℤ) : ℚ)) (some ((fair_mid.getD 0 : ℤ) : ℚ))
    else none
  match reasonableness_score facts fair_mid comps.length with
  | .error e => .error e
  | .ok (score, label, n2) =>
    let o := offer_strategy facts fair_low fair_mid
    let offer_anchor := o.1
    let offer_low := o.2.1
    let offer_high := o.2.2.1
    let n3 := o.2.2.2
    .ok
      { fair_value_low :=
          if truthyInt fair_low then some (round_to_nearest (fair_low.getD 0) 1000) else none
        fair_value_mid :=
          if truthyInt fair_mid then some (round_to_nearest (fair_mid.getD 0) 1000) else none
        fair_value_high :=
          if truthyInt fair_high then some (round_to_nearest (fair_high.getD 0) 1000) else none
        fair_value_range :=
          if truthyInt fair_low && truthyInt fair_mid && truthyInt fair_high then
            some ("£" ++ fmtComma (round_to_nearest (fair_low.getD 0) 1000) ++
              " / £" ++ fmtComma (round_to_nearest (fair_mid.getD 0) 1000) ++
              " / £" ++ fmtComma (round_to_nearest (fair_high.getD 0) 1000))
          else none
        asking_vs_mid := asking_vs_mid.map (fun d => fmtSigned 1 d ++ "%")
        asking_vs_mid_pct := asking_vs_mid
        score := score
        label := label
        offer_anchor :=
          if truthyInt offer_anchor then some ("£" ++ fmtComma (offer_anchor.getD 0)) else none
        offer_band :=
          if truthyInt offer_low && truthyInt offer_high then
            some ("£" ++ fmtComma (offer_low.getD 0) ++ "–£" ++ fmtComma (offer_high.getD 0))
          else none
        notes := n1 ++ n2 ++ n3
        comps_used := comps.length }

/-- Python's rendering of a possibly-`None` string in an f-string
(this is what `valuation.get(key, '—')` produces for a key that is present
but stores `None`: `dict.get` returns the stored `None`, not the default,
and the f-string prints it as `None`). -/
def pyShowOptStr : Option String → String
  | none => "None"
  | some s => s

/-- Python's rendering of a possibly-`None` integer in an f-string. -/
def pyShowOptInt : Option ℤ → String
  | none => "None"
  | some n => toString n

/-- Python `x or '—'` for an optional string (em dash when falsy). -/
def orDashStr (o : Option String) : String :=
  if truthyStr o then o.getD "" else "—"

/-- Python `x or '—'` for an optional integer (em dash when falsy). -/
def orDashInt (o : Option ℤ) : String :=
  if truthyInt o then toString (o.getD 0) else "—"

/-- One comps-table row of `render_markdown` (propertyedge_core.py
lines 367-369). -/
def compRow (c : Comp) : String :=
  let st := String.intercalate " "
    ((([c.street, c.town].filter truthyStr)).map (fun o => o.getD ""))
  "| " ++ c.date ++ " | £" ++ fmtComma c.price ++ " | " ++ c.postcode ++
    " | " ++ c.property_type ++ " | " ++ st ++ " |"

/-- The `lines` list of `render_markdown` (propertyedge_core.py lines
340-378); the function returns `"\n".join(lines)`. -/
def render_lines (facts : ListingFacts) (comps : List Comp)
    (valuation : Valuation) : List String :=
  ["# PropertyEdge AI Report — " ++ facts.property_id,
   "",
   "**Source:** " ++ facts.url,
   "",
   "## Fact Card",
   "- Asking price: " ++
     (if truthyInt facts.price then "£" ++ fmtComma (facts.price.getD 0) else "—"),
   "- Address: " ++ orDashStr facts.address,
   "- Postcode: " ++ orDashStr facts.postcode,
   "- Type: " ++ orDashStr facts.property_type,
   "- Tenure: " ++ orDashStr facts.tenure,
   "- Beds/Baths: " ++ orDashInt facts.bedrooms ++ "/" ++ orDashInt facts.bathrooms] ++
  [if truthyQ facts.floor_area_sqm then
     "- Size: " ++ fmtFixed 2 (facts.floor_area_sqm.getD 0) ++ " sqm (" ++
       toString (truncInt (if truthyQ facts.floor_area_sqft then
         facts.floor_area_sqft.getD 0 else 0)) ++ " sq ft)"
   else "- Size: —"] ++
  ["- EPC: " ++ orDashStr facts.epc_rating] ++
  (if truthyList facts.key_features then
    ["- Key features: " ++
      String.intercalate ", " ((facts.key_features.getD []).take 8) ++
      (if (facts.key_features.getD []).length > 8 then "…" else "")]
  else []) ++
  ["",
   "## Sold comps (Land Registry PPD)"] ++
  (if comps.isEmpty then ["- None found."]
   else
    ["| Sold date | Sold price | Postcode | Type | Street/Town |",
     "|---|---:|---|---|---|"] ++ comps.map compRow) ++
  ["",
   "## Valuation",
   "- Fair value (low/mid/high): " ++ pyShowOptStr valuation.fair_value_range,
   "- Asking vs fair-mid: " ++ pyShowOptStr valuation.asking_vs_mid,
   "- PropertyEdge score: " ++ pyShowOptInt valuation.score ++ " — " ++
     pyShowOptStr valuation.label,
   "- Offer anchor: " ++ pyShowOptStr valuation.offer_anchor,
   "- Offer band: " ++ pyShowOptStr valuation.offer_band,
   "",
   "**Disclaimer:** Educational content only — not a professional valuation or financial advice."]

/-- Embedding of `render_markdown` (propertyedge_core.py lines 340-379). -/
def render_markdown (facts : ListingFacts) (comps : List Comp)
    (valuation : Valuation) : String :=
  String.intercalate "\n" (render_lines facts comps valuation)

/-! ### Helper lemmas -/

/-- Ceiling written through floor, so that concrete ceilings evaluate. -/
theorem ceil_as_floor (a : ℚ) : ⌈a⌉ = -⌊-a⌋ := by
  rw [Int.floor_neg, neg_neg]

/-- On nonnegative arguments Python truncation agrees with floor. -/
theorem truncInt_eq_floor {x : ℚ} (h : 0 ≤ x) : truncInt x = ⌊x⌋ := by
  simp [truncInt, h]

/-- Python truncation toward zero is monotone. -/
theorem truncInt_mono {x y : ℚ} (h : x ≤ y) : truncInt x ≤ truncInt y := by
  unfold truncInt
  by_cases hx : 0 ≤ x
  · rw [if_pos hx, if_pos (le_trans hx h)]
    exact Int.floor_le_floor h
  · rw [if_neg hx]
    by_cases hy : 0 ≤ y
    · rw [if_pos hy]
      have h1 : ⌈x⌉ ≤ 0 := Int.ceil_le.2 (by exact_mod_cast le_of_lt (not_le.1 hx))
      have h2 : (0 : ℤ) ≤ ⌊y⌋ := Int.le_floor.2 (by exact_mod_cast hy)
      omega
    · rw [if_neg hy]
      exact Int.ceil_le_ceil h

/-- The linear interpolation kernel of `quantile` on the sorted list. -/
def interp (s : List ℚ) (pos : ℚ) : ℚ :=
  s.getD ⌊pos⌋.toNat 0 + (s.getD ⌈pos⌉.toNat 0 - s.getD ⌊pos⌋.toNat 0) * (pos - (⌊pos⌋ : ℚ))

/-- For lists with at least two elements, `quantile` is exactly linear
interpolation on the sorted list at fractional rank `(n-1)·q`. -/
theorem quantile_eq_interp (vals : List ℚ) (q : ℚ) (h : 2 ≤ vals.length) :
    quantile vals q = some (interp (sortQ vals) (((vals.length : ℚ) - 1) * q)) := by
  have hne : vals.isEmpty = false := by
    cases vals with
    | nil => simp at h
    | cons a t => simp [List.isEmpty]
  have hlen : (sortQ vals).length = vals.length := List.length_insertionSort _ _
  have hlen1 : ¬ (sortQ vals).length = 1 := by omega
  unfold quantile
  rw [hne]
  simp only [Bool.false_eq_true, if_false]
  rw [if_neg hlen1, hlen]
  by_cases hfl : ⌊(((vals.length : ℚ)) - 1) * q⌋ = ⌈(((vals.length : ℚ)) - 1) * q⌉
  · rw [if_pos hfl]
    simp only [interp, ← hfl, sub_self, zero_mul, add_zero]
  · rw [if_neg hfl]
    rfl

/-- Sorting produces a `≤`-sorted permutation; entries are monotone in the
index (with a default that is never reached below the length). -/
theorem sortQ_getD_mono (l : List ℚ) {i j : ℕ} (hij : i ≤ j)
    (hj : j < (sortQ l).length) : (sortQ l).getD i 0 ≤ (sortQ l).getD j 0 := by
  have hs : (sortQ l).Sorted (· ≤ ·) := List.sorted_insertionSort _ _
  have hi : i < (sortQ l).length := lt_of_le_of_lt hij hj
  rw [List.getD_eq_getElem _ _ hi, List.getD_eq_getElem _ _ hj]
  rcases lt_or_eq_of_le hij with hlt | rfl
  · have := List.Sorted.rel_get_of_lt hs (a := ⟨i, hi⟩) (b := ⟨j, hj⟩)
      (Fin.mk_lt_mk.2 hlt)
    simpa using this
  · exact le_refl _

/-- The interpolation kernel is monotone in the rank over the valid range. -/
theorem interp_mono (l : List ℚ) {p1 p2 : ℚ} (h0 : 0 ≤ p1) (h12 : p1 ≤ p2)
    (hn : p2 ≤ (sortQ l).length - 1) (hne : 1 ≤ (sortQ l).length) :
    interp (sortQ l) p1 ≤ interp (sortQ l) p2 := by
  have hp2 : (0 : ℚ) ≤ p2 := le_trans h0 h12
  have hfl1 : (0 : ℤ) ≤ ⌊p1⌋ := Int.le_floor.2 (by exact_mod_cast h0)
  have hfl2 : (0 : ℤ) ≤ ⌊p2⌋ := Int.le_floor.2 (by exact_mod_cast hp2)
  have hcl1 : (0 : ℤ) ≤ ⌈p1⌉ := le_trans hfl1 (Int.floor_le_ceil _)
  have hcl2 : (0 : ℤ) ≤ ⌈p2⌉ := le_trans hfl2 (Int.floor_le_ceil _)
  have hceil_lt1 : ⌈p1⌉.toNat < (sortQ l).length := by
    have h1 : (⌈p1⌉ : ℚ) < (sortQ l).length := by
      calc (⌈p1⌉ : ℚ) < p1 + 1 := Int.ceil_lt_add_one _
        _ ≤ p2 + 1 := by linarith
        _ ≤ (sortQ l).length := by linarith
    have h2 : ⌈p1⌉ < ((sortQ l).length : ℤ) := by exact_mod_cast h1
    omega
  have hceil_lt2 : ⌈p2⌉.toNat < (sortQ l).length := by
    have h1 : (⌈p2⌉ : ℚ) < (sortQ l).length := by
      calc (⌈p2⌉ : ℚ) < p2 + 1 := Int.ceil_lt_add_one _
        _ ≤ (sortQ l).length := by linarith
    have h2 : ⌈p2⌉ < ((sortQ l).length : ℤ) := by exact_mod_cast h1
    omega
  have hfloor_le_ceil1 : ⌊p1⌋.toNat ≤ ⌈p1⌉.toNat := by
    have := Int.floor_le_ceil p1; omega
  have hfloor_le_ceil2 : ⌊p2⌋.toNat ≤ ⌈p2⌉.toNat := by
    have := Int.floor_le_ceil p2; omega
  have hfrac1 : 0 ≤ p1 - (⌊p1⌋ : ℚ) := by
    have := Int.floor_le p1; linarith
  have hfrac1' : p1 - (⌊p1⌋ : ℚ) < 1 := by
    have := Int.lt_floor_add_one p1; linarith
  have hfrac2 : 0 ≤ p2 - (⌊p2⌋ : ℚ) := by
    have := Int.floor_le p2; linarith
  have hsLH1 : (sortQ l).getD ⌊p1⌋.toNat 0 ≤ (sortQ l).getD ⌈p1⌉.toNat 0 :=
    sortQ_getD_mono l hfloor_le_ceil1 hceil_lt1
  have hsLH2 : (sortQ l).getD ⌊p2⌋.toNat 0 ≤ (sortQ l).getD ⌈p2⌉.toNat 0 :=
    sortQ_getD_mono l hfloor_le_ceil2 hceil_lt2
  by_cases hLL : ⌊p1⌋ = ⌊p2⌋
  · -- same segment: the interpolant is monotone in the fraction
    simp only [interp]
    rcases eq_or_lt_of_le (Int.floor_le_ceil p1) with hflc | hflc
    · -- p1 is an integer: interp at p1 is the left endpoint
      have hint : (⌊p1⌋ : ℚ) = p1 := by
        have h1 := Int.floor_le p1
        have h2 := Int.le_ceil p1
        rw [← hflc] at h2
        exact le_antisymm h1 h2
      have hstep1 : (sortQ l).getD ⌊p1⌋.toNat 0 +
          ((sortQ l).getD ⌈p1⌉.toNat 0 - (sortQ l).getD ⌊p1⌋.toNat 0) * (p1 - (⌊p1⌋ : ℚ)) =
          (sortQ l).getD ⌊p1⌋.toNat 0 := by
        rw [hint]; ring
      rw [hstep1, hLL]
      nlinarith [hsLH2, hfrac2]
    · -- p1 is not an integer, so ⌈p1⌉ = ⌊p1⌋ + 1 = ⌊p2⌋ + 1 ≥ ⌈p2⌉
      have hc1 : ⌈p1⌉ = ⌊p1⌋ + 1 := by
        have := Int.ceil_le_floor_add_one p1; omega
      have hc2 : ⌈p2⌉ ≤ ⌊p2⌋ + 1 := Int.ceil_le_floor_add_one p2
      have hC12 : ⌈p1⌉.toNat ≤ ⌈p2⌉.toNat ∨ ⌈p2⌉ = ⌊p2⌋ := by
        by_cases hp2i : ⌈p2⌉ = ⌊p2⌋
        · exact Or.inr hp2i
        · left
          have : ⌊p2⌋ + 1 ≤ ⌈p2⌉ := by
            rcases lt_or_eq_of_le (Int.floor_le_ceil p2) with h | h
            · omega
            · exact absurd h.symm hp2i
          omega
      rcases hC12 with hC12 | hp2i
      · have hH12 : (sortQ l).getD ⌈p1⌉.toNat 0 ≤ (sortQ l).getD ⌈p2⌉.toNat 0 :=
          sortQ_getD_mono l hC12 hceil_lt2
        have hH21 : (sortQ l).getD ⌈p2⌉.toNat 0 ≤ (sortQ l).getD ⌈p1⌉.toNat 0 := by
          have : ⌈p2⌉.toNat ≤ ⌈p1⌉.toNat := by omega
          exact sortQ_getD_mono l this hceil_lt1
        have hHeq : (sortQ l).getD ⌈p1⌉.toNat 0 = (sortQ l).getD ⌈p2⌉.toNat 0 :=
          le_antisymm hH12 hH21
        rw [hLL, ← hHeq]
        have hd12 : p1 - (⌊p2⌋ : ℚ) ≤ p2 - (⌊p2⌋ : ℚ) := by linarith
        rw [hLL] at hsLH1
        nlinarith [hsLH1, hd12, hfrac1, hfrac2]
      · -- p2 an integer with the same floor: then p2 = ⌊p1⌋ contradicts p1 ≤ p2, p1 non-integer
        have hint2 : (⌊p2⌋ : ℚ) = p2 := by
          have h1 := Int.floor_le p2
          have h2 := Int.le_ceil p2
          rw [hp2i] at h2
          exact le_antisymm h1 h2
        have : p2 < p1 := by
          rw [← hint2, ← hLL]
          have h1 := Int.floor_le p1
          rcases lt_or_eq_of_le h1 with h | h
          · exact h
          · exfalso
            have : (⌊p1⌋ : ℚ) = p1 := h
            have : ⌈p1⌉ = ⌊p1⌋ := by
              rw [show p1 = ((⌊p1⌋ : ℤ) : ℚ) from this.symm]
              simp
            omega
        linarith
  · -- different segments: go through s[⌈p1⌉] ≤ s[⌊p2⌋]
    have hL12 : ⌊p1⌋ < ⌊p2⌋ := by
      rcases lt_or_eq_of_le (Int.floor_le_floor h12) with h | h
      · exact h
      · exact absurd h hLL
    have hceil1_le : ⌈p1⌉.toNat ≤ ⌊p2⌋.toNat := by
      have h1 : p1 < (⌊p2⌋ : ℚ) := by
        have : p1 < ⌊p1⌋ + 1 := Int.lt_floor_add_one p1
        have h2 : (⌊p1⌋ : ℚ) + 1 ≤ (⌊p2⌋ : ℚ) := by exact_mod_cast hL12
        linarith
      have : ⌈p1⌉ ≤ ⌊p2⌋ := Int.ceil_le.2 (le_of_lt h1)
      omega
    have hfloor2_lt : ⌊p2⌋.toNat < (sortQ l).length := by
      have h1 : (⌊p2⌋ : ℚ) ≤ p2 := Int.floor_le p2
      have h2 : (⌊p2⌋ : ℚ) < (sortQ l).length := by linarith
      have h3 : ⌊p2⌋ < ((sortQ l).length : ℤ) := by exact_mod_cast h2
      omega
    have step1 : interp (sortQ l) p1 ≤ (sortQ l).getD ⌈p1⌉.toNat 0 := by
      simp only [interp]
      nlinarith [hsLH1, hfrac1, hfrac1']
    have step2 : (sortQ l).getD ⌈p1⌉.toNat 0 ≤ (sortQ l).getD ⌊p2⌋.toNat 0 :=
      sortQ_getD_mono l hceil1_le hfloor2_lt
    have step3 : (sortQ l).getD ⌊p2⌋.toNat 0 ≤ interp (sortQ l) p2 := by
      simp only [interp]
      nlinarith [hsLH2, hfrac2]
    linarith

/-- The separate `median` implementation agrees with `quantile` at `1/2`. -/
theorem median_eq_quantile_half (vals : List ℚ) :
    median vals = quantile vals (1/2) := by
  by_cases hE : vals.isEmpty
  · simp [median, quantile, hE]
  · have hE' : vals.isEmpty = false := by simpa using hE
    have hlen : (sortQ vals).length = vals.length := List.length_insertionSort _ _
    have hpos : 1 ≤ vals.length := by
      cases vals with
      | nil => simp at hE'
      | cons a t => simp
    unfold median quantile
    rw [hE']
    simp only [Bool.false_eq_true, if_false]
    by_cases h1 : (sortQ vals).length = 1
    · rw [if_pos h1, h1]
      norm_num
    · rw [if_neg h1]
      have h2 : 2 ≤ (sortQ vals).length := by omega
      rcases Nat.even_or_odd (sortQ vals).length with ⟨k, hk⟩ | ⟨k, hk⟩
      · -- even length 2k, k ≥ 1
        have hk1 : 1 ≤ k := by omega
        have hmod : (sortQ vals).length % 2 = 0 := by omega
        rw [if_neg (by omega : ¬ (sortQ vals).length % 2 = 1)]
        have hposval : (((sortQ vals).length : ℚ) - 1) * (1/2) =
            (((k : ℤ) - 1 : ℤ) : ℚ) + 1/2 := by
          have : ((sortQ vals).length : ℚ) = 2 * (k : ℚ) := by
            rw [hk]; push_cast; ring
          rw [this]; push_cast; ring
        have hfl : ⌊(((sortQ vals).length : ℚ) - 1) * (1/2)⌋ = (k : ℤ) - 1 := by
          rw [hposval, Int.floor_int_add]
          norm_num
        have hcl : ⌈(((sortQ vals).length : ℚ) - 1) * (1/2)⌉ = (k : ℤ) := by
          rw [hposval, ceil_as_floor]
          have : -((((k : ℤ) - 1 : ℤ) : ℚ) + 1/2) = (((-k : ℤ)) : ℚ) + 1/2 := by
            push_cast; ring
          rw [this, Int.floor_int_add]
          norm_num
        have hne2 : ¬ ⌊(((sortQ vals).length : ℚ) - 1) * (1/2)⌋ =
            ⌈(((sortQ vals).length : ℚ) - 1) * (1/2)⌉ := by
          rw [hfl, hcl]; omega
        rw [if_neg hne2, hfl, hcl]
        have htn1 : ((k : ℤ) - 1).toNat = (sortQ vals).length / 2 - 1 := by omega
        have htn2 : ((k : ℤ)).toNat = (sortQ vals).length / 2 := by omega
        rw [htn1, htn2, hposval]
        congr 1
        push_cast
        ring
      · -- odd length 2k+1
        have hmod : (sortQ vals).length % 2 = 1 := by omega
        rw [if_pos hmod]
        have hposval : (((sortQ vals).length : ℚ) - 1) * (1/2) = (((k : ℤ)) : ℚ) := by
          have : ((sortQ vals).length : ℚ) = 2 * (k : ℚ) + 1 := by
            rw [hk]; push_cast; ring
          rw [this]; push_cast; ring
        have hfl : ⌊(((sortQ vals).length : ℚ) - 1) * (1/2)⌋ = (k : ℤ) := by
          rw [hposval, Int.floor_intCast]
        have hcl : ⌈(((sortQ vals).length : ℚ) - 1) * (1/2)⌉ = (k : ℤ) := by
          rw [hposval, Int.ceil_intCast]
        rw [if_pos (by rw [hfl, hcl] : _ = _), hfl]
        have : ((k : ℤ)).toNat = (sortQ vals).length / 2 := by omega
        rw [this]

/-- The value of `pythonRound` is within one half of the argument. -/
theorem pythonRound_bounds (x : ℚ) :
    x - 1/2 ≤ (pythonRound x : ℚ) ∧ (pythonRound x : ℚ) ≤ x + 1/2 := by
  have hfl := Int.floor_le x
  have hfu := Int.lt_floor_add_one x
  unfold pythonRound
  by_cases hA : x - ⌊x⌋ < 1/2
  · rw [if_pos hA]
    constructor <;> linarith
  · rw [if_neg hA]
    by_cases hB : 1/2 < x - ⌊x⌋
    · rw [if_pos hB]
      push_cast
      constructor <;> linarith
    · rw [if_neg hB]
      have hhalf : x - ⌊x⌋ = 1/2 := by linarith [not_lt.1 hA, not_lt.1 hB]
      by_cases hC : ⌊x⌋ % 2 = 0
      · rw [if_pos hC]
        constructor <;> linarith
      · rw [if_neg hC]
        push_cast
        constructor <;> linarith

/-- Round half to even is monotone. -/
theorem pythonRound_mono {x y : ℚ} (h : x ≤ y) : pythonRound x ≤ pythonRound y := by
  by_contra hc
  push_neg at hc
  have h1 : pythonRound y + 1 ≤ pythonRound x := hc
  have bx := pythonRound_bounds x
  have hy' := pythonRound_bounds y
  have hxy : x = y := by
    have h2 : ((pythonRound y + 1 : ℤ) : ℚ) ≤ (pythonRound x : ℚ) := by
      exact_mod_cast h1
    push_cast at h2
    linarith [bx.2, hy'.1]
  rw [hxy] at hc
  exact lt_irrefl _ hc

/-- Rounding to the nearest 1000 moves an integer by at most 500. -/
theorem round_to_nearest_1000_bounds (x : ℤ) :
    x - 500 ≤ round_to_nearest x 1000 ∧ round_to_nearest x 1000 ≤ x + 500 := by
  have hb := pythonRound_bounds ((x : ℚ) / 1000)
  have h1 : (x : ℚ) - 500 ≤ 1000 * (pythonRound ((x : ℚ) / 1000) : ℚ) := by
    nlinarith [hb.1]
  have h2 : 1000 * (pythonRound ((x : ℚ) / 1000) : ℚ) ≤ (x : ℚ) + 500 := by
    nlinarith [hb.2]
  unfold round_to_nearest
  constructor
  · exact_mod_cast h1
  · exact_mod_cast h2

/-- Rounding to the nearest 1000 is monotone. -/
theorem round_to_nearest_1000_mono {x y : ℤ} (h : x ≤ y) :
    round_to_nearest x 1000 ≤ round_to_nearest y 1000 := by
  unfold round_to_nearest
  have hx : (x : ℚ) ≤ (y : ℚ) := by exact_mod_cast h
  have hdiv : (x : ℚ) / ((1000 : ℤ) : ℚ) ≤ (y : ℚ) / ((1000 : ℤ) : ℚ) := by gcongr
  have := pythonRound_mono hdiv
  omega

/-! ### Evaluation lemmas for concrete inputs -/

/-- Characterisation of the fuel-driven square root: below `4 ^ fuel` it
is the floor square root. -/
theorem isqrtAux_spec : ∀ (fuel n : ℕ), n < 4 ^ fuel →
    isqrtAux fuel n * isqrtAux fuel n ≤ n ∧
      n < (isqrtAux fuel n + 1) * (isqrtAux fuel n + 1) := by
  intro fuel
  induction fuel with
  | zero =>
    intro n hn
    interval_cases n
    simp [isqrtAux]
  | succ f ih =>
    intro n hn
    by_cases h0 : n = 0
    · subst h0; simp [isqrtAux]
    · have hquarter : n / 4 < 4 ^ f := by
        have h4 : 4 ^ (f + 1) = 4 ^ f * 4 := by ring
        rw [h4] at hn
        omega
      obtain ⟨ih1, ih2⟩ := ih (n / 4) hquarter
      unfold isqrtAux
      rw [if_neg h0]
      set s := isqrtAux f (n / 4) with hs
      have hlow : (2 * s) * (2 * s) ≤ n := by
        have : 4 * (s * s) ≤ 4 * (n / 4) := by omega
        have h44 : 4 * (n / 4) ≤ n := by omega
        nlinarith
      have hhigh : n < (2 * s + 2) * (2 * s + 2) := by
        have : n / 4 + 1 ≤ (s + 1) * (s + 1) := ih2
        have h44 : n < 4 * (n / 4) + 4 := by omega
        nlinarith
      by_cases hstep : (2 * s + 1) * (2 * s + 1) ≤ n
      · rw [if_pos hstep]
        exact ⟨hstep, hhigh⟩
      · rw [if_neg hstep]
        exact ⟨hlow, by omega⟩

/-- Evaluating `isqrt` at a concrete point via its characterisation. -/
theorem isqrt_eq {m r : ℕ} (h1 : r * r ≤ m) (h2 : m < (r + 1) * (r + 1))
    (hm : m < 4 ^ 64) : isqrt m = r := by
  obtain ⟨a, b⟩ := isqrtAux_spec 64 m hm
  have a' : isqrt m * isqrt m ≤ m := a
  have b' : m < (isqrt m + 1) * (isqrt m + 1) := b
  rcases Nat.lt_trichotomy (isqrt m) r with h | h | h
  · exfalso
    have hle : isqrt m + 1 ≤ r := h
    have : (isqrt m + 1) * (isqrt m + 1) ≤ r * r := Nat.mul_le_mul hle hle
    omega
  · exact h
  · exfalso
    have hle : r + 1 ≤ isqrt m := h
    have : (r + 1) * (r + 1) ≤ isqrt m * isqrt m := Nat.mul_le_mul hle hle
    omega

/-- The modelled square root is exact at 1. -/
theorem ratSqrt_one : ratSqrt 1 = 1 := by
  have h : isqrt 10000000000000000 = 100000000 :=
    isqrt_eq (by norm_num) (by norm_num) (by norm_num)
  norm_num [ratSqrt]
  norm_num [h]

/-- The modelled square root of `25/34` (= 50/68) is below the `0.92`
clamp, as the true square root `≈ 0.8575` is. -/
theorem ratSqrt_fifty_over_68_le : ratSqrt (25/34) ≤ 92/100 := by
  have h : isqrt 8500000000000000000 = 2915475947 :=
    isqrt_eq (by norm_num) (by norm_num) (by norm_num)
  rw [ratSqrt, if_neg (by norm_num)]
  norm_num [Int.toNat]
  norm_num [h]

/-- Example facts record: only a URL and a property id (all optional
fields absent). -/
def bareFacts : ListingFacts := { url := "u", property_id := "1" }

/-! ### Claims -/

/-- C8: `quantile` returns no value on the empty list, returns the single
element of a one-element list regardless of `q`, and otherwise linearly
interpolates between the lower and upper order statistics of the sorted
list at fractional rank `(n-1)*q`; in particular
`quantile [10,20,30,40] 0.25 = 17.5` and `quantile [10,20,30,40] 0.75 = 32.5`. -/
theorem C8_quantile_behaviour :
    (∀ q : ℚ, quantile [] q = none) ∧
    (∀ (v q : ℚ), quantile [v] q = some v) ∧
    (∀ (vals : List ℚ) (q : ℚ), 2 ≤ vals.length →
      quantile vals q = some (interp (sortQ vals) (((vals.length : ℚ) - 1) * q))) ∧
    quantile [10, 20, 30, 40] (1/4) = some (35/2) ∧
    quantile [10, 20, 30, 40] (3/4) = some (65/2) := by
  refine ⟨?_, ?_, ?_, ?_, ?_⟩
  · intro q; simp [quantile]
  · intro v q
    norm_num [quantile, sortQ, List.insertionSort, List.orderedInsert, List.getD]
  · intro vals q h
    exact quantile_eq_interp vals q h
  · norm_num [quantile, sortQ, List.insertionSort, List.orderedInsert, List.getD,
      ceil_as_floor, Int.toNat]
  · norm_num [quantile, sortQ, List.insertionSort, List.orderedInsert, List.getD,
      ceil_as_floor, Int.toNat]

/-- Witness for C8 at concrete inputs. -/
theorem C8_quantile_behaviour_witness :
    quantile [] (1/2) = none ∧ quantile [7] (9/10) = some 7 ∧
    quantile [10, 20, 30, 40] (1/2) =
      some (interp (sortQ [10, 20, 30, 40])
        (((([10, 20, 30, 40] : List ℚ).length : ℚ) - 1) * (1/2))) :=
  ⟨C8_quantile_behaviour.1 (1/2), C8_quantile_behaviour.2.1 7 (9/10),
    C8_quantile_behaviour.2.2.1 [10, 20, 30, 40] (1/2) (by norm_num)⟩

/-- C3 counterexample: with a known floor area of exactly 68 sqm the size
adjustment factor is 1.0, refuting "the factor equals 1.0 exactly when the
floor area is unknown (absent)": here the factor is 1.0 with the floor
area present. -/
theorem C3_counterexample :
    size_adjustment (some 68) = 1 ∧ (some (68 : ℚ)) ≠ none := by
  constructor
  · have h5 : ((68 : ℚ)) / 68 = 1 := by norm_num
    simp only [size_adjustment, truthyQ, Option.getD_some, h5, ratSqrt_one]
    norm_num
  · simp

/-- C3 (amended): the size-adjustment factor always lies in [0.92, 1.10];
it equals 1.0 whenever the floor area is unknown; and whenever the floor
area is truthy (known and nonzero) the clamped `sqrt(area/68)` formula is
applied.  (The spec's "exactly" direction fails: a known floor area of
68 sqm also yields factor 1.0.) -/
theorem C3_size_adjustment (fa : Option ℚ) :
    (92/100 ≤ size_adjustment fa ∧ size_adjustment fa ≤ 110/100) ∧
    (fa = none → size_adjustment fa = 1) ∧
    (∀ a : ℚ, fa = some a → a ≠ 0 →
      size_adjustment fa = max (92/100) (min (110/100) (ratSqrt (a / 68)))) := by
  refine ⟨?_, ?_, ?_⟩
  · unfold size_adjustment
    by_cases ht : truthyQ fa
    · rw [if_pos ht]
      constructor
      · exact le_max_left _ _
      · apply max_le
        · norm_num
        · exact min_le_left _ _
    · rw [if_neg ht]
      norm_num
  · intro h
    simp [size_adjustment, h, truthyQ]
  · intro a ha hne
    subst ha
    have ht : truthyQ (some a) = true := by simp [truthyQ, hne]
    simp [size_adjustment, ht]

/-- Witness for C3 (amended) at concrete inputs. -/
theorem C3_size_adjustment_witness :
    (92/100 ≤ size_adjustment (some 50) ∧ size_adjustment (some 50) ≤ 110/100) ∧
    size_adjustment none = 1 ∧
    size_adjustment (some 50) = max (92/100) (min (110/100) (ratSqrt (50 / 68))) :=
  ⟨(C3_size_adjustment (some 50)).1, (C3_size_adjustment none).2.1 rfl,
    (C3_size_adjustment (some 50)).2.2 50 rfl (by norm_num)⟩

/-- C2: contrary to the never-raise contract, `reasonableness_score`
raises when the asking price is present and `fair_mid = 0`: `pct` yields
`None` for a zero denominator, and the closing note formats that `None`
with `:+.1f`, a `TypeError`.  Evaluated here at asking price 100000,
`fair_mid = 0`, 0 comps. -/
theorem C2_crash_at_zero_fair_mid :
    reasonableness_score { bareFacts with price := some 100000 } (some 0) 0 =
      .error "unsupported format string passed to NoneType.__format__" := by
  norm_num [reasonableness_score, bareFacts, pct]

/-- C4 counterexample: at asking price 105, fair mid 100 and no comps the
score is 49, in the claimed band 40-59, but the label the code returns
spells the apostrophe as U+2019 (right single quotation mark), so it is
not character-for-character equal to the claimed string
"Overpriced unless there\x27s hidden value" (ASCII apostrophe). -/
theorem C4_counterexample :
    (∃ notes, reasonableness_score { bareFacts with price := some 105 } (some 100) 0 =
      .ok (some 49, some "Overpriced unless there’s hidden value", notes)) ∧
    "Overpriced unless there’s hidden value" ≠ "Overpriced unless there\x27s hidden value" := by
  constructor
  · refine ⟨["Asking vs fair-mid deviation ≈ +5.0%. Price component=27/40."], ?_⟩
    norm_num [reasonableness_score, bareFacts, pct, truthyQ, truthyStr, truncInt,
      fmtSigned, pythonRound, fracDigits]
    decide
  · decide

/-- C4 (amended): the inclusive label thresholds are as claimed (≥80, ≥60,
≥40, else), but with the code's exact strings: the 40-59 label is
"Overpriced unless there’s hidden value" with U+2019, not an ASCII
apostrophe. -/
theorem C4_label_thresholds (facts : ListingFacts) (fm : Option ℤ) (cu : ℕ)
    (s : ℤ) (l : String) (notes : List String)
    (h : reasonableness_score facts fm cu = .ok (some s, some l, notes)) :
    l = if s ≥ 80 then "Reasonably priced"
        else if s ≥ 60 then "Slight premium / negotiate"
        else if s ≥ 40 then "Overpriced unless there’s hidden value"
        else "Stretch pricing / proceed cautiously" := by
  unfold reasonableness_score at h
  cases hp : facts.price with
  | none => rw [hp] at h; simp at h
  | some p =>
    cases hfm : fm with
    | none => rw [hp, hfm] at h; simp at h
    | some m =>
      rw [hp, hfm] at h
      by_cases hm : ((m : ℤ) : ℚ) = 0
      · simp only [pct, if_pos hm] at h
        simp at h
      · simp only [pct, if_neg hm] at h
        simp only [Except.ok.injEq, Prod.mk.injEq, Option.some.injEq] at h
        obtain ⟨hs, hl, -⟩ := h
        rw [← hs, ← hl]

/-- Witness for C4 (amended) at asking price 105, fair mid 100, 0 comps. -/
theorem C4_label_thresholds_witness :
    "Overpriced unless there’s hidden value" =
      if (49 : ℤ) ≥ 80 then "Reasonably priced"
      else if (49 : ℤ) ≥ 60 then "Slight premium / negotiate"
      else if (49 : ℤ) ≥ 40 then "Overpriced unless there’s hidden value"
      else "Stretch pricing / proceed cautiously" :=
  C4_label_thresholds { bareFacts with price := some 105 } (some 100) 0 49
    "Overpriced unless there’s hidden value"
    ["Asking vs fair-mid deviation ≈ +5.0%. Price component=27/40."]
    (by
      norm_num [reasonableness_score, bareFacts, pct, truthyQ, truthyStr, truncInt,
        fmtSigned, pythonRound, fracDigits]
      decide)

/-- The modelled square root is nonnegative. -/
theorem ratSqrt_nonneg (x : ℚ) : 0 ≤ ratSqrt x := by
  unfold ratSqrt
  split
  · exact le_refl 0
  · positivity

/-- The clamp keeps the size-adjustment factor inside `[0.92, 1.10]`. -/
theorem size_adjustment_bounds (fa : Option ℚ) :
    92/100 ≤ size_adjustment fa ∧ size_adjustment fa ≤ 110/100 := by
  unfold size_adjustment
  by_cases ht : truthyQ fa
  · rw [if_pos ht]
    constructor
    · exact le_max_left _ _
    · apply max_le
      · norm_num
      · exact min_le_left _ _
  · rw [if_neg ht]
    norm_num

/-- At a floor area of 50 sqm the clamp binds below: the factor is 0.92. -/
theorem size_adjustment_fifty : size_adjustment (some 50) = 92/100 := by
  have h1 : ((50 : ℚ)) / 68 = 25/34 := by norm_num
  have h2 := ratSqrt_fifty_over_68_le
  have h3 := ratSqrt_nonneg (25/34)
  have ht : truthyQ (some (50 : ℚ)) = true := by simp [truthyQ]
  rw [size_adjustment, if_pos ht, Option.getD_some, h1]
  rw [min_eq_right (by linarith), max_eq_left h2]

/-- Truncation toward zero is the identity on integers. -/
theorem truncInt_intCast (a : ℤ) : truncInt ((a : ℤ) : ℚ) = a := by
  unfold truncInt
  split
  · exact Int.floor_intCast a
  · exact Int.ceil_intCast a

/-- Quantiles at increasing `q` in `[0, 1]` are ordered, for any nonempty
value list. -/
theorem quantile_mono (vals : List ℚ) {q1 q2 : ℚ} (hq1 : 0 ≤ q1)
    (h12 : q1 ≤ q2) (hq2 : q2 ≤ 1) (hne : vals ≠ []) :
    ∃ a b, quantile vals q1 = some a ∧ quantile vals q2 = some b ∧ a ≤ b := by
  have hlen : 1 ≤ vals.length := by
    cases vals with
    | nil => exact absurd rfl hne
    | cons x t => simp
  by_cases h1 : vals.length = 1
  · -- single element: both quantiles are that element
    obtain ⟨v, hv⟩ : ∃ v, vals = [v] := by
      cases vals with
      | nil => simp at h1
      | cons x t =>
        cases t with
        | nil => exact ⟨x, rfl⟩
        | cons y u => simp at h1
    subst hv
    refine ⟨v, v, ?_, ?_, le_refl v⟩ <;>
      norm_num [quantile, sortQ, List.insertionSort, List.orderedInsert, List.getD]
  · have h2 : 2 ≤ vals.length := by omega
    have e1 := quantile_eq_interp vals q1 h2
    have e2 := quantile_eq_interp vals q2 h2
    refine ⟨_, _, e1, e2, ?_⟩
    have hlenq : (1 : ℚ) ≤ (vals.length : ℚ) := by exact_mod_cast hlen
    have hs : (sortQ vals).length = vals.length := List.length_insertionSort _ _
    apply interp_mono
    · exact mul_nonneg (by linarith) hq1
    · apply mul_le_mul_of_nonneg_left h12
      linarith
    · rw [hs]
      calc ((vals.length : ℚ) - 1) * q2 ≤ ((vals.length : ℚ) - 1) * 1 := by
            apply mul_le_mul_of_nonneg_left hq2
            linarith
        _ = (vals.length : ℚ) - 1 := by ring
    · rw [hs]; exact hlen

/-- The score and the label of a successful `reasonableness_score` are
`None` together, exactly when the asking price or `fair_mid` is `None`. -/
theorem reasonableness_score_none_iff (facts : ListingFacts) (fm : Option ℤ)
    (cu : ℕ) (r : Option ℤ × Option String × List String)
    (h : reasonableness_score facts fm cu = .ok r) :
    (r.1 = none ↔ (facts.price = none ∨ fm = none)) ∧
    (r.2.1 = none ↔ r.1 = none) := by
  unfold reasonableness_score at h
  cases hp : facts.price with
  | none =>
    rw [hp] at h
    simp only [Except.ok.injEq] at h
    rw [← h]
    simp
  | some p =>
    cases hfm : fm with
    | none =>
      rw [hp, hfm] at h
      simp only [Except.ok.injEq] at h
      rw [← h]
      simp
    | some m =>
      rw [hp, hfm] at h
      by_cases hm : ((m : ℤ) : ℚ) = 0
      · simp only [pct, if_pos hm] at h
        simp at h
      · simp only [pct, if_neg hm] at h
        simp only [Except.ok.injEq] at h
        rw [← h]
        simp

/-- C6: a successful `reasonableness_score` returns a null score iff the
asking price or `fair_mid` is null; every returned score lies in [0, 100]
and equals the clamp to [0, 100] of the component sum whose price part is
`max 0 (40 - ⌊|deviation%|/15 · 40⌋)`, with data (≤ 20), tenure
(8/10/15), energy (7/8/9/12/15) and behaviour (6) parts as in the code. -/
theorem C6_score_formula (facts : ListingFacts) (fm : Option ℤ) (cu : ℕ)
    (r : Option ℤ × Option String × List String)
    (h : reasonableness_score facts fm cu = .ok r) :
    (r.1 = none ↔ (facts.price = none ∨ fm = none)) ∧
    (∀ s, r.1 = some s → 0 ≤ s ∧ s ≤ 100 ∧
      ∃ p m, facts.price = some p ∧ fm = some m ∧ ((m : ℤ) : ℚ) ≠ 0 ∧
        s = max 0 (min 100 (
          max 0 (40 - ⌊|((p : ℚ) - (m : ℚ)) / (m : ℚ) * 100| / 15 * 40⌋) +
          ((if truthyQ facts.floor_area_sqm then 10 else 0) + min 10 (cu : ℤ)) +
          (if truthyStr facts.tenure then
            (if pyStartsWith (pyLower (facts.tenure.getD "")) ("free") then 15
             else if pyStartsWith (pyLower (facts.tenure.getD "")) ("lease") then 10
             else 8)
           else 8) +
          (if truthyStr facts.epc_rating then
            (if pyUpper (pyStrip (facts.epc_rating.getD "")) = "A" ∨
                pyUpper (pyStrip (facts.epc_rating.getD "")) = "B" then 15
             else if pyUpper (pyStrip (facts.epc_rating.getD "")) = "C" then 12
             else if pyUpper (pyStrip (facts.epc_rating.getD "")) = "D" then 9
             else 7)
           else 8) + 6))) := by
  refine ⟨(reasonableness_score_none_iff facts fm cu r h).1, ?_⟩
  intro s hs
  unfold reasonableness_score at h
  cases hp : facts.price with
  | none =>
    rw [hp] at h
    simp only [Except.ok.injEq] at h
    rw [← h] at hs
    simp at hs
  | some p =>
    cases hfm : fm with
    | none =>
      rw [hp, hfm] at h
      simp only [Except.ok.injEq] at h
      rw [← h] at hs
      simp at hs
    | some m =>
      rw [hp, hfm] at h
      by_cases hm : ((m : ℤ) : ℚ) = 0
      · simp only [pct, if_pos hm] at h
        simp at h
      · simp only [pct, if_neg hm] at h
        simp only [Except.ok.injEq] at h
        rw [← h] at hs
        simp only [Option.some.injEq] at hs
        rw [← hs]
        refine ⟨le_max_left _ _, max_le (by norm_num) (min_le_left _ _), p, m,
          rfl, rfl, hm, ?_⟩
        have habs : (0 : ℚ) ≤ |((p : ℚ) - (m : ℚ)) / (m : ℚ) * 100| / 15 * 40 := by
          positivity
        simp only [Option.getD_some]
        rw [truncInt_eq_floor habs]

/-- Example facts: asking price 105, freehold tenure, EPC C, 50 sqm. -/
def facts6 : ListingFacts :=
  { bareFacts with
    price := some 105
    tenure := some "Freehold"
    epc_rating := some "C"
    floor_area_sqm := some 50 }

/-- Witness for C6 at asking price 105, fair mid 100, 3 comps:
score = 27 + 13 + 15 + 12 + 6 = 73 ∈ [0, 100]. -/
theorem C6_score_formula_witness :
    reasonableness_score facts6 (some 100) 3 =
      .ok (some 73, some "Slight premium / negotiate",
        ["Asking vs fair-mid deviation ≈ +5.0%. Price component=27/40."]) ∧
    ((some (73 : ℤ) = (none : Option ℤ)) ↔ (facts6.price = none ∨ some (100 : ℤ) = none)) ∧
    0 ≤ (73 : ℤ) ∧ (73 : ℤ) ≤ 100 := by
  have heval : reasonableness_score facts6 (some 100) 3 =
      .ok (some 73, some "Slight premium / negotiate",
        ["Asking vs fair-mid deviation ≈ +5.0%. Price component=27/40."]) := by
    norm_num [reasonableness_score, facts6, bareFacts, pct, truthyQ, truthyStr,
      truncInt, fmtSigned, pythonRound, fracDigits, pyLower, pyStartsWith,
      pyStrip, pyUpper, max_def, min_def]
    decide
  have hc := C6_score_formula facts6 (some 100) 3 _ heval
  have h73 := hc.2 73 rfl
  exact ⟨heval, hc.1, h73.1, h73.2.1⟩

/-- C9: with an empty comp list the estimator returns (null, null, null)
plus the no-comps note, and the full valuation-building run yields null
fair values/range, null score and label, null offer fields, comps_used 0,
and carries the no-comps note — no stage substitutes a default number. -/
theorem C9_empty_comps (facts : ListingFacts) :
    estimate_value_from_comps facts [] =
      (none, none, none,
        ["No sold comps found (PPD SQLite not loaded or no matches in postcode sector/time window)."]) ∧
    ∃ v, buildValuation facts [] = .ok v ∧
      v.fair_value_low = none ∧ v.fair_value_mid = none ∧ v.fair_value_high = none ∧
      v.fair_value_range = none ∧ v.score = none ∧ v.label = none ∧
      v.offer_anchor = none ∧ v.offer_band = none ∧ v.comps_used = 0 ∧
      "No sold comps found (PPD SQLite not loaded or no matches in postcode sector/time window)."
        ∈ v.notes := by
  constructor
  · simp [estimate_value_from_comps]
  · have hbv : buildValuation facts [] = .ok
        { fair_value_low := none
          fair_value_mid := none
          fair_value_high := none
          fair_value_range := none
          asking_vs_mid := none
          asking_vs_mid_pct := none
          score := none
          label := none
          offer_anchor := none
          offer_band := none
          notes := ["No sold comps found (PPD SQLite not loaded or no matches in postcode sector/time window).",
            "Score unavailable (missing asking price or fair-mid).",
            "Offer strategy unavailable (missing asking price or fair-mid)."]
          comps_used := 0 } := by
      cases hp : facts.price with
      | none =>
        simp [buildValuation, estimate_value_from_comps, reasonableness_score,
          offer_strategy, truthyInt, hp]
      | some p =>
        simp [buildValuation, estimate_value_from_comps, reasonableness_score,
          offer_strategy, truthyInt, hp]
    exact ⟨_, hbv, rfl, rfl, rfl, rfl, rfl, rfl, rfl, rfl, rfl, by simp⟩

/-- Truncation toward zero of a nonnegative rational is nonnegative. -/
theorem truncInt_nonneg {x : ℚ} (h : 0 ≤ x) : 0 ≤ truncInt x := by
  rw [truncInt_eq_floor h]
  exact Int.le_floor.2 (by exact_mod_cast h)

/-- The ±2% band around a nonnegative anchor stays ordered after rounding
everything to the nearest 1000. -/
theorem band_around (anchor : ℤ) (h0 : 0 ≤ anchor) :
    round_to_nearest (truncInt ((anchor : ℚ) * (98/100))) 1000 ≤
      round_to_nearest anchor 1000 ∧
    round_to_nearest anchor 1000 ≤
      round_to_nearest (truncInt ((anchor : ℚ) * (102/100))) 1000 := by
  have hanchorQ : (0 : ℚ) ≤ (anchor : ℚ) := by exact_mod_cast h0
  have hlow : truncInt ((anchor : ℚ) * (98/100)) ≤ anchor := by
    calc truncInt ((anchor : ℚ) * (98/100)) ≤ truncInt ((anchor : ℤ) : ℚ) :=
          truncInt_mono (by nlinarith)
      _ = anchor := truncInt_intCast anchor
  have hhigh : anchor ≤ truncInt ((anchor : ℚ) * (102/100)) := by
    calc anchor = truncInt ((anchor : ℤ) : ℚ) := (truncInt_intCast anchor).symm
      _ ≤ truncInt ((anchor : ℚ) * (102/100)) := truncInt_mono (by nlinarith)
  exact ⟨round_to_nearest_1000_mono hlow, round_to_nearest_1000_mono hhigh⟩

/-- C5 counterexample: with asking price 500000, fair_low 10714 and
fair_mid 11000 the pre-rounding anchor is max(10450, 10499) = 10499, but
rounding to the nearest 1000 returns anchor 10000, which is strictly
below floor(fair_low·0.98) = 10499 — refuting "the offer anchor finally
returned (after rounding) is ≥ floor(fair_low·0.98)". -/
theorem C5_counterexample :
    offer_strategy { bareFacts with price := some 500000 } (some 10714) (some 11000) =
      (some 10000, some 10000, some 11000,
        ["Offer anchor set near 95% of fair-mid (rounded to nearest £1k)."]) ∧
    (10000 : ℤ) < ⌊(10714 : ℚ) * (98/100)⌋ := by
  constructor
  · norm_num [offer_strategy, bareFacts, truncInt, round_to_nearest, pythonRound]
  · norm_num

/-- C5 (amended): when asking price and fair_mid are present the strategy
returns an anchor and a band; the returned anchor can sit up to 500 below
`floor(fair_low·0.98)` because of the final rounding to the nearest 1000
(but never more); and for nonnegative fair_mid (as produced from positive
comp prices) the returned band satisfies band_low ≤ anchor ≤ band_high. -/
theorem C5_offer_strategy (facts : ListingFacts) (fl fm : Option ℤ)
    (a bl bh : ℤ) (notes : List String)
    (h : offer_strategy facts fl fm = (some a, some bl, some bh, notes)) :
    (∀ l, fl = some l → truncInt ((l : ℚ) * (98/100)) - 500 ≤ a) ∧
    (∀ m, fm = some m → 0 ≤ m → bl ≤ a ∧ a ≤ bh) := by
  unfold offer_strategy at h
  cases hp : facts.price with
  | none => rw [hp] at h; simp at h
  | some p =>
    cases hfm : fm with
    | none => rw [hp, hfm] at h; simp at h
    | some m =>
      rw [hp, hfm] at h
      cases fl with
      | none =>
        simp only [Prod.mk.injEq, Option.some.injEq] at h
        obtain ⟨ha, hbl, hbh, -⟩ := h
        refine ⟨?_, ?_⟩
        · intro l hl
          cases hl
        · intro m' hm' hm0
          have hmm : m = m' := Option.some.inj hm'
          subst hmm
          have h0 : (0 : ℤ) ≤ truncInt ((m : ℚ) * (95/100)) := by
            apply truncInt_nonneg
            have : (0 : ℚ) ≤ (m : ℚ) := by exact_mod_cast hm0
            positivity
          obtain ⟨u, v⟩ := band_around _ h0
          rw [← ha, ← hbl, ← hbh]
          exact ⟨u, v⟩
      | some l0 =>
        simp only [Prod.mk.injEq, Option.some.injEq] at h
        obtain ⟨ha, hbl, hbh, -⟩ := h
        have hmax : truncInt ((l0 : ℚ) * (98/100)) ≤
            max (truncInt ((m : ℚ) * (95/100))) (truncInt ((l0 : ℚ) * (98/100))) :=
          le_max_right _ _
        refine ⟨?_, ?_⟩
        · intro l hl
          have hll : l0 = l := Option.some.inj hl
          subst hll
          have h1 : round_to_nearest (truncInt ((l0 : ℚ) * (98/100))) 1000 ≤
              round_to_nearest
                (max (truncInt ((m : ℚ) * (95/100))) (truncInt ((l0 : ℚ) * (98/100)))) 1000 :=
            round_to_nearest_1000_mono hmax
          have h2 := (round_to_nearest_1000_bounds (truncInt ((l0 : ℚ) * (98/100)))).1
          rw [← ha]
          omega
        · intro m' hm' hm0
          have hmm : m = m' := Option.some.inj hm'
          subst hmm
          have h0 : (0 : ℤ) ≤
              max (truncInt ((m : ℚ) * (95/100))) (truncInt ((l0 : ℚ) * (98/100))) := by
            apply le_trans ?_ (le_max_left _ _)
            apply truncInt_nonneg
            have : (0 : ℚ) ≤ (m : ℚ) := by exact_mod_cast hm0
            positivity
          obtain ⟨u, v⟩ := band_around _ h0
          rw [← ha, ← hbl, ← hbh]
          exact ⟨u, v⟩

/-- Witness for C5 (amended) at asking 500000, fair_low 10714, fair_mid
11000: the returned triple is (10000, 10000, 11000). -/
theorem C5_offer_strategy_witness :
    (truncInt ((10714 : ℚ) * (98/100)) - 500 ≤ (10000 : ℤ)) ∧
    ((10000 : ℤ) ≤ 10000 ∧ (10000 : ℤ) ≤ 11000) := by
  have heval : offer_strategy { bareFacts with price := some 500000 }
      (some 10714) (some 11000) =
      (some 10000, some 10000, some 11000,
        ["Offer anchor set near 95% of fair-mid (rounded to nearest £1k)."]) := by
    norm_num [offer_strategy, bareFacts, truncInt, round_to_nearest, pythonRound]
  have h := C5_offer_strategy { bareFacts with price := some 500000 }
    (some 10714) (some 11000) 10000 10000 11000
    ["Offer anchor set near 95% of fair-mid (rounded to nearest £1k)."] heval
  exact ⟨h.1 10714 rfl, h.2 11000 rfl (by norm_num)⟩

/-- An optional integer is falsy exactly when it is `None` or `0`. -/
theorem truthyInt_eq_false_iff (o : Option ℤ) :
    truthyInt o = false ↔ (o = none ∨ o = some 0) := by
  cases o <;> simp [truthyInt]

/-- A guarded `some` is `none` exactly when the guard is false. -/
theorem ite_some_none_iff {α : Type} (c : Bool) (x : α) :
    (if c then some x else none) = none ↔ c = false := by
  cases c <;> simp

/-- A truthy optional integer is neither `None` nor `0`. -/
theorem truthyInt_true_ne {o : Option ℤ} (h : truthyInt o = true) :
    o ≠ none ∧ o ≠ some 0 := by
  constructor
  · intro hc
    rw [hc] at h
    simp [truthyInt] at h
  · intro hc
    rw [hc] at h
    simp [truthyInt] at h

/-- Null-field characterisation of the valuation record built by
`run_propertyedge`: every optional output key is `None` exactly when its
stage output was `None` or `0` (Python truthiness), with score/label
`None` exactly when the asking price or the fair mid value is `None`. -/
theorem buildValuation_ok_fields (facts : ListingFacts) (comps : List Comp)
    (v : Valuation) (h : buildValuation facts comps = .ok v) :
    (v.fair_value_low = none ↔ ((estimate_value_from_comps facts comps).1 = none ∨
      (estimate_value_from_comps facts comps).1 = some 0)) ∧
    (v.fair_value_mid = none ↔ ((estimate_value_from_comps facts comps).2.1 = none ∨
      (estimate_value_from_comps facts comps).2.1 = some 0)) ∧
    (v.fair_value_high = none ↔ ((estimate_value_from_comps facts comps).2.2.1 = none ∨
      (estimate_value_from_comps facts comps).2.2.1 = some 0)) ∧
    (v.fair_value_range = none ↔ (v.fair_value_low = none ∨ v.fair_value_mid = none ∨
      v.fair_value_high = none)) ∧
    (v.asking_vs_mid = none ↔ (facts.price = none ∨ facts.price = some 0 ∨
      (estimate_value_from_comps facts comps).2.1 = none ∨
      (estimate_value_from_comps facts comps).2.1 = some 0)) ∧
    (v.score = none ↔ (facts.price = none ∨
      (estimate_value_from_comps facts comps).2.1 = none)) ∧
    (v.label = none ↔ v.score = none) ∧
    (v.offer_anchor = none ↔
      ((offer_strategy facts (estimate_value_from_comps facts comps).1
        (estimate_value_from_comps facts comps).2.1).1 = none ∨
       (offer_strategy facts (estimate_value_from_comps facts comps).1
        (estimate_value_from_comps facts comps).2.1).1 = some 0)) ∧
    (v.offer_band = none ↔
      ((offer_strategy facts (estimate_value_from_comps facts comps).1
        (estimate_value_from_comps facts comps).2.1).2.1 = none ∨
       (offer_strategy facts (estimate_value_from_comps facts comps).1
        (estimate_value_from_comps facts comps).2.1).2.1 = some 0 ∨
       (offer_strategy facts (estimate_value_from_comps facts comps).1
        (estimate_value_from_comps facts comps).2.1).2.2.1 = none ∨
       (offer_strategy facts (estimate_value_from_comps facts comps).1
        (estimate_value_from_comps facts comps).2.1).2.2.1 = some 0)) ∧
    v.comps_used = comps.length := by
  unfold buildValuation at h
  dsimp only [] at h
  cases hrs : reasonableness_score facts
      (estimate_value_from_comps facts comps).2.1 comps.length with
  | error e =>
    rw [hrs] at h
    simp at h
  | ok rt =>
    obtain ⟨sc, lb, n2⟩ := rt
    rw [hrs] at h
    simp only [Except.ok.injEq] at h
    subst h
    obtain ⟨hiff, hlab⟩ := reasonableness_score_none_iff facts
      (estimate_value_from_comps facts comps).2.1 comps.length (sc, lb, n2) hrs
    refine ⟨?_, ?_, ?_, ?_, ?_, ?_, ?_, ?_, ?_, rfl⟩
    · rw [ite_some_none_iff, truthyInt_eq_false_iff]
    · rw [ite_some_none_iff, truthyInt_eq_false_iff]
    · rw [ite_some_none_iff, truthyInt_eq_false_iff]
    · cases truthyInt (estimate_value_from_comps facts comps).1 <;>
        cases truthyInt (estimate_value_from_comps facts comps).2.1 <;>
        cases truthyInt (estimate_value_from_comps facts comps).2.2.1 <;>
        simp
    · cases htp : truthyInt facts.price with
      | false =>
        have hfp := (truthyInt_eq_false_iff facts.price).1 htp
        simp only [htp, Bool.false_and, Bool.false_eq_true, if_false,
          Option.map_none', true_iff]
        rcases hfp with hc | hc
        · exact Or.inl hc
        · exact Or.inr (Or.inl hc)
      | true =>
        cases htm : truthyInt (estimate_value_from_comps facts comps).2.1 with
        | false =>
          have hfm := (truthyInt_eq_false_iff _).1 htm
          simp only [htp, htm, Bool.true_and, Bool.false_eq_true, if_false,
            Option.map_none', true_iff]
          rcases hfm with hc | hc
          · exact Or.inr (Or.inr (Or.inl hc))
          · exact Or.inr (Or.inr (Or.inr hc))
        | true =>
          have hpnn : facts.price ≠ none := by
            intro hc
            rw [hc] at htp
            simp [truthyInt] at htp
          have hpn0 : facts.price ≠ some 0 := by
            intro hc
            rw [hc] at htp
            simp [truthyInt] at htp
          cases hmv : (estimate_value_from_comps facts comps).2.1 with
          | none =>
            rw [hmv] at htm
            simp [truthyInt] at htm
          | some m =>
            rw [hmv] at htm
            have hm0 : m ≠ 0 := by
              intro hc
              rw [hc] at htm
              simp [truthyInt] at htm
            have hmQ : ((m : ℤ) : ℚ) ≠ 0 := by exact_mod_cast hm0
            simp [pct, truthyInt, hm0, hmQ, hpnn, hpn0]
    · exact hiff
    · exact hlab
    · rw [ite_some_none_iff, truthyInt_eq_false_iff]
    · cases ho1 : truthyInt (offer_strategy facts (estimate_value_from_comps facts comps).1
          (estimate_value_from_comps facts comps).2.1).2.1 with
      | false =>
        have h1 := (truthyInt_eq_false_iff _).1 ho1
        simp only [Bool.false_and, Bool.false_eq_true, if_false, true_iff]
        rcases h1 with hc | hc
        · exact Or.inl hc
        · exact Or.inr (Or.inl hc)
      | true =>
        cases ho2 : truthyInt (offer_strategy facts (estimate_value_from_comps facts comps).1
            (estimate_value_from_comps facts comps).2.1).2.2.1 with
        | false =>
          have h2 := (truthyInt_eq_false_iff _).1 ho2
          simp only [Bool.true_and, Bool.false_eq_true, if_false, true_iff]
          rcases h2 with hc | hc
          · exact Or.inr (Or.inr (Or.inl hc))
          · exact Or.inr (Or.inr (Or.inr hc))
        | true =>
          obtain ⟨hA, hB⟩ := truthyInt_true_ne ho1
          obtain ⟨hC, hD⟩ := truthyInt_true_ne ho2
          simp [hA, hB, hC, hD]

/-- Example facts: only a known floor area of 50 sqm (no asking price). -/
def facts1 : ListingFacts := { bareFacts with floor_area_sqm := some 50 }

/-- A single comp with (degenerate) sale price £1, enough to drive the
size-adjusted fair value to 0. -/
def comps1 : List Comp :=
  [{ price := 1, date := "2024-01-01", postcode := "AB1 2CD", property_type := "F" }]

/-- C1 counterexample: with one £1 comp and a 50 sqm floor area the
estimator computes fair_low = int(1 · 0.92) = 0 — a number, not an
absence — yet the valuation record turns `fair_value_low` into `None`
(the code guards with Python truthiness, `if fair_low else None`),
conflating a computed 0 with "unknown". -/
theorem C1_counterexample :
    (estimate_value_from_comps facts1 comps1).1 = some 0 ∧
    ∃ v, buildValuation facts1 comps1 = .ok v ∧ v.fair_value_low = none := by
  have h1 : (estimate_value_from_comps facts1 comps1).1 = some 0 := by
    simp only [estimate_value_from_comps]
    norm_num [comps1, comp_prices, facts1, bareFacts, median, quantile, sortQ,
      List.insertionSort, List.orderedInsert, List.getD, size_adjustment_fifty,
      truncInt]
  refine ⟨h1, ?_⟩
  have hrs : reasonableness_score facts1
      (estimate_value_from_comps facts1 comps1).2.1 comps1.length =
      .ok (none, none, ["Score unavailable (missing asking price or fair-mid)."]) := by
    unfold reasonableness_score
    simp [facts1, bareFacts]
  unfold buildValuation
  dsimp only []
  rw [hrs]
  refine ⟨_, rfl, ?_⟩
  dsimp only []
  rw [h1]
  simp [truthyInt]

/-- C1 (amended): every optional output field of the valuation record is
null exactly when its prerequisite stage output is `None` **or `0`**:
the engine guards each field with Python truthiness, so a computed 0 is
conflated with "unknown" (refuting the claim's never-conflate part),
while score/label are null exactly when the asking price or fair mid is
null. -/
theorem C1_null_fields (facts : ListingFacts) (comps : List Comp)
    (v : Valuation) (h : buildValuation facts comps = .ok v) :
    (v.fair_value_low = none ↔ ((estimate_value_from_comps facts comps).1 = none ∨
      (estimate_value_from_comps facts comps).1 = some 0)) ∧
    (v.fair_value_mid = none ↔ ((estimate_value_from_comps facts comps).2.1 = none ∨
      (estimate_value_from_comps facts comps).2.1 = some 0)) ∧
    (v.fair_value_high = none ↔ ((estimate_value_from_comps facts comps).2.2.1 = none ∨
      (estimate_value_from_comps facts comps).2.2.1 = some 0)) ∧
    (v.fair_value_range = none ↔ (v.fair_value_low = none ∨ v.fair_value_mid = none ∨
      v.fair_value_high = none)) ∧
    (v.asking_vs_mid = none ↔ (facts.price = none ∨ facts.price = some 0 ∨
      (estimate_value_from_comps facts comps).2.1 = none ∨
      (estimate_value_from_comps facts comps).2.1 = some 0)) ∧
    (v.score = none ↔ (facts.price = none ∨
      (estimate_value_from_comps facts comps).2.1 = none)) ∧
    (v.label = none ↔ v.score = none) ∧
    (v.offer_anchor = none ↔
      ((offer_strategy facts (estimate_value_from_comps facts comps).1
        (estimate_value_from_comps facts comps).2.1).1 = none ∨
       (offer_strategy facts (estimate_value_from_comps facts comps).1
        (estimate_value_from_comps facts comps).2.1).1 = some 0)) ∧
    (v.offer_band = none ↔
      ((offer_strategy facts (estimate_value_from_comps facts comps).1
        (estimate_value_from_comps facts comps).2.1).2.1 = none ∨
       (offer_strategy facts (estimate_value_from_comps facts comps).1
        (estimate_value_from_comps facts comps).2.1).2.1 = some 0 ∨
       (offer_strategy facts (estimate_value_from_comps facts comps).1
        (estimate_value_from_comps facts comps).2.1).2.2.1 = none ∨
       (offer_strategy facts (estimate_value_from_comps facts comps).1
        (estimate_value_from_comps facts comps).2.1).2.2.1 = some 0)) ∧
    v.comps_used = comps.length :=
  buildValuation_ok_fields facts comps v h

/-- Witness for C1 (amended): the empty-comps valuation of a bare facts
record, whose optional fields are all `None`. -/
theorem C1_null_fields_witness :
    ∃ v, buildValuation bareFacts [] = .ok v ∧
      (v.fair_value_low = none ↔ ((estimate_value_from_comps bareFacts []).1 = none ∨
        (estimate_value_from_comps bareFacts []).1 = some 0)) ∧
      (v.score = none ↔ (bareFacts.price = none ∨
        (estimate_value_from_comps bareFacts []).2.1 = none)) ∧
      v.comps_used = ([] : List Comp).length := by
  have hbv : buildValuation bareFacts [] = .ok
      { fair_value_low := none
        fair_value_mid := none
        fair_value_high := none
        fair_value_range := none
        asking_vs_mid := none
        asking_vs_mid_pct := none
        score := none
        label := none
        offer_anchor := none
        offer_band := none
        notes := ["No sold comps found (PPD SQLite not loaded or no matches in postcode sector/time window).",
          "Score unavailable (missing asking price or fair-mid).",
          "Offer strategy unavailable (missing asking price or fair-mid)."]
        comps_used := 0 } := by
    simp [buildValuation, estimate_value_from_comps, reasonableness_score,
      offer_strategy, truthyInt, bareFacts]
  have hf := C1_null_fields bareFacts [] _ hbv
  exact ⟨_, hbv, hf.1, hf.2.2.2.2.2.1, hf.2.2.2.2.2.2.2.2.2⟩

/-- C7: whenever the truthy comp price list is nonempty, the estimator
returns a full band with fair_low ≤ fair_mid ≤ fair_high: the 25th/50th
75th percentiles are ordered and all three receive the same positive size
adjustment and integer truncation. -/
theorem C7_band_ordered (facts : ListingFacts) (comps : List Comp)
    (hne : comp_prices comps ≠ []) :
    ∃ l m h,
      (estimate_value_from_comps facts comps).1 = some l ∧
      (estimate_value_from_comps facts comps).2.1 = some m ∧
      (estimate_value_from_comps facts comps).2.2.1 = some h ∧
      l ≤ m ∧ m ≤ h := by
  have hcne : comps ≠ [] := by
    intro hc
    rw [hc] at hne
    simp [comp_prices] at hne
  have hE : comps.isEmpty = false := by
    cases comps with
    | nil => exact absurd rfl hcne
    | cons x t => rfl
  obtain ⟨a, b, ha, hb, hab⟩ := quantile_mono (comp_prices comps)
    (by norm_num : (0:ℚ) ≤ 1/4) (by norm_num : (1:ℚ)/4 ≤ 1/2) (by norm_num) hne
  obtain ⟨b', c, hb', hc, hbc⟩ := quantile_mono (comp_prices comps)
    (by norm_num : (0:ℚ) ≤ 1/2) (by norm_num : (1:ℚ)/2 ≤ 3/4) (by norm_num) hne
  have hbb : b = b' := by
    rw [hb] at hb'
    exact Option.some.inj hb'
  subst hbb
  have hmed : median (comp_prices comps) = some b := by
    rw [median_eq_quantile_half]
    exact hb
  have hadj : (0 : ℚ) ≤ size_adjustment facts.floor_area_sqm := by
    have := (size_adjustment_bounds facts.floor_area_sqm).1
    linarith
  refine ⟨truncInt (a * size_adjustment facts.floor_area_sqm),
    truncInt (b * size_adjustment facts.floor_area_sqm),
    truncInt (c * size_adjustment facts.floor_area_sqm), ?_, ?_, ?_, ?_, ?_⟩
  · unfold estimate_value_from_comps
    rw [hE]
    simp only [Bool.false_eq_true, if_false]
    rw [hmed, ha, hc]
  · unfold estimate_value_from_comps
    rw [hE]
    simp only [Bool.false_eq_true, if_false]
    rw [hmed, ha, hc]
  · unfold estimate_value_from_comps
    rw [hE]
    simp only [Bool.false_eq_true, if_false]
    rw [hmed, ha, hc]
  · exact truncInt_mono (mul_le_mul_of_nonneg_right hab hadj)
  · exact truncInt_mono (mul_le_mul_of_nonneg_right hbc hadj)

/-- Three positive-price comps used by the C7 witness. -/
def comps7 : List Comp :=
  [{ price := 100000, date := "2023-06-01", postcode := "AB1 2CD", property_type := "T" },
   { price := 120000, date := "2023-07-01", postcode := "AB1 2CE", property_type := "T" },
   { price := 110000, date := "2023-08-01", postcode := "AB1 2CF", property_type := "T" }]

/-- Witness for C7 at three comps with prices 100000/120000/110000. -/
theorem C7_band_ordered_witness :
    comp_prices comps7 ≠ [] ∧
    ∃ l m h,
      (estimate_value_from_comps bareFacts comps7).1 = some l ∧
      (estimate_value_from_comps bareFacts comps7).2.1 = some m ∧
      (estimate_value_from_comps bareFacts comps7).2.2.1 = some h ∧
      l ≤ m ∧ m ≤ h :=
  ⟨by simp [comps7, comp_prices],
   C7_band_ordered bareFacts comps7 (by simp [comps7, comp_prices])⟩

/-- The all-`None` valuation record (every key present, storing `None`). -/
def nullValuation : Valuation :=
  { fair_value_low := none
    fair_value_mid := none
    fair_value_high := none
    fair_value_range := none
    asking_vs_mid := none
    asking_vs_mid_pct := none
    score := none
    label := none
    offer_anchor := none
    offer_band := none
    notes := []
    comps_used := 0 }

/-- C10 counterexample: for a valuation dict whose keys store `None`, the
report renders "None", not an em dash: `dict.get(key, '—')` returns the
stored `None` (the default only applies to a missing key) and the
f-string prints it as "None". -/
theorem C10_counterexample :
    "- Offer anchor: None" ∈ render_lines bareFacts [] nullValuation ∧
    "- Offer anchor: —" ∉ render_lines bareFacts [] nullValuation := by
  constructor
  · decide
  · decide

/-- C10 (amended): the composer is a total function (modelled without any
failure mode); null facts fields render as em-dash placeholders and the
empty comp list yields the empty-state row, but null valuation values
render as the string "None" (the em-dash default of `.get` is unreachable
because every key is always present in the dict). -/
theorem C10_render (facts : ListingFacts) (comps : List Comp) (v : Valuation) :
    render_markdown facts comps v =
      String.intercalate "\n" (render_lines facts comps v) ∧
    (facts.price = none → "- Asking price: —" ∈ render_lines facts comps v) ∧
    (facts.address = none → "- Address: —" ∈ render_lines facts comps v) ∧
    (facts.floor_area_sqm = none → "- Size: —" ∈ render_lines facts comps v) ∧
    (comps = [] → "- None found." ∈ render_lines facts comps v) ∧
    (v.fair_value_range = none →
      "- Fair value (low/mid/high): None" ∈ render_lines facts comps v) ∧
    (v.offer_anchor = none → "- Offer anchor: None" ∈ render_lines facts comps v) ∧
    (v.offer_band = none → "- Offer band: None" ∈ render_lines facts comps v) := by
  refine ⟨rfl, ?_, ?_, ?_, ?_, ?_, ?_, ?_⟩
  · intro h
    simp [render_lines, h, truthyInt]
  · intro h
    simp [render_lines, h, orDashStr, truthyStr]
  · intro h
    simp [render_lines, h, truthyQ]
  · intro h
    simp [render_lines, h]
  · intro h
    simp [render_lines, h, pyShowOptStr]
  · intro h
    simp [render_lines, h, pyShowOptStr]
  · intro h
    simp [render_lines, h, pyShowOptStr]

/-- Witness for C10 (amended) on an all-absent facts record, no comps and
the all-`None` valuation. -/
theorem C10_render_witness :
    ("- Asking price: —" ∈ render_lines bareFacts [] nullValuation) ∧
    ("- None found." ∈ render_lines bareFacts [] nullValuation) ∧
    ("- Fair value (low/mid/high): None" ∈ render_lines bareFacts [] nullValuation) := by
  have h := C10_render bareFacts [] nullValuation
  exact ⟨h.2.1 rfl, h.2.2.2.2.1 rfl, h.2.2.2.2.2.1 rfl⟩

end PropertyEdge
